import Mathlib

/-!
Verification of the workky backend server (src/server/server.js, second and
authoritative revision in the file, lines 335-1031).

The development shallowly embeds the parts of the server that the verified
properties talk about:

* a JSON value model with the serializer used by `POST /api/business/save`
  (`JSON.stringify(config, null, 2)`), the compact serializer used by the LLM
  proxy (`JSON.stringify(req.body)`), and the reader used by
  `loadBusinessConfig` (`JSON.parse`);
* the prompt builder `buildSystemPrompt` and its helper `buildGreeting` data;
* the `/api/start-agent` handler with its input validation and 409 retry;
* the agent-event relay (`broadcastAgentLog`, `POST /api/agent-log`,
  `GET /api/agent-events`);
* the CORS origin callback and the LLM reverse proxy.

JavaScript numbers are modelled as integers: every numeric field the server
manipulates is used either verbatim in a template string or in the single
tax computation, which is modelled by exact hundredths arithmetic.  Machine
floating point is out of scope; no verified property depends on it.
-/

namespace Workky

/-- JSON values as express.json / JSON.parse produce them.  JavaScript
numbers are restricted to integers (see the file header). -/
inductive Json where
  | null
  | bool (b : Bool)
  | num (n : Int)
  | str (s : String)
  | arr (elems : List Json)
  | obj (members : List (String × Json))

/-- JavaScript truthiness of a JSON value (`NaN` cannot arise in the model). -/
def Json.truthy : Json → Bool
  | .null => false
  | .bool b => b
  | .num n => n != 0
  | .str s => s != ""
  | .arr _ => true
  | .obj _ => true

/-- JavaScript truthiness of a possibly-absent (`undefined`) value. -/
def jsTruthy : Option Json → Bool
  | none => false
  | some v => v.truthy

/-- Lower-case hexadecimal digit, as `JSON.stringify` emits in escapes. -/
def hexDigitChar (n : Nat) : Char :=
  if n < 10 then Char.ofNat (48 + n) else Char.ofNat (87 + n)

/-- Decimal digit character. -/
def digitChar (n : Nat) : Char := Char.ofNat (48 + n)

/-- The escape `JSON.stringify` applies to one string character. -/
def escapeChar (c : Char) : List Char :=
  if c = '"' then ['\\', '"']
  else if c = '\\' then ['\\', '\\']
  else if c = '\x08' then ['\\', 'b']
  else if c = '\x0c' then ['\\', 'f']
  else if c = '\n' then ['\\', 'n']
  else if c = '\r' then ['\\', 'r']
  else if c = '\t' then ['\\', 't']
  else if c.toNat < 32 then
    ['\\', 'u', '0', '0', hexDigitChar (c.toNat / 16), hexDigitChar (c.toNat % 16)]
  else [c]

/-- A JSON string literal: quote, escaped characters, quote. -/
def quoteChars (s : String) : List Char :=
  '"' :: (s.data.map escapeChar).flatten ++ ['"']

/-- Decimal digits of a natural number, most significant first. -/
def natChars (n : Nat) : List Char :=
  if n = 0 then ['0'] else (Nat.digits 10 n).reverse.map digitChar

/-- Decimal rendering of an integer, as JavaScript prints integral numbers. -/
def intChars (n : Int) : List Char :=
  if n < 0 then '-' :: natChars n.natAbs else natChars n.natAbs

/-- Two-space indentation prefix at nesting depth `d`
(`JSON.stringify(config, null, 2)`). -/
def indentChars (d : Nat) : List Char := List.replicate (2 * d) ' '

mutual

/-- Characters of `JSON.stringify(v, null, 2)` at nesting depth `d`. -/
def stringifyChars : Json → Nat → List Char
  | .null, _ => 'n' :: 'u' :: 'l' :: 'l' :: []
  | .bool true, _ => 't' :: 'r' :: 'u' :: 'e' :: []
  | .bool false, _ => 'f' :: 'a' :: 'l' :: 's' :: 'e' :: []
  | .num n, _ => intChars n
  | .str s, _ => quoteChars s
  | .arr [], _ => '[' :: ']' :: []
  | .arr (x :: xs), d =>
      '[' :: '\n' :: (indentChars (d + 1) ++ stringifyChars x (d + 1)
        ++ stringifyElems xs d ++ '\n' :: indentChars d ++ [']'])
  | .obj [], _ => '\x7b' :: '\x7d' :: []
  | .obj ((k, v) :: kvs), d =>
      '\x7b' :: '\n' :: (indentChars (d + 1) ++ quoteChars k
        ++ ':' :: ' ' :: stringifyChars v (d + 1)
        ++ stringifyMembers kvs d ++ '\n' :: indentChars d ++ ['\x7d'])

/-- Remaining array elements, each preceded by `",\n"` and indentation. -/
def stringifyElems : List Json → Nat → List Char
  | [], _ => []
  | x :: xs, d =>
      ',' :: '\n' :: (indentChars (d + 1) ++ stringifyChars x (d + 1)
        ++ stringifyElems xs d)

/-- Remaining object members, each preceded by `",\n"` and indentation. -/
def stringifyMembers : List (String × Json) → Nat → List Char
  | [], _ => []
  | (k, v) :: kvs, d =>
      ',' :: '\n' :: (indentChars (d + 1) ++ quoteChars k
        ++ ':' :: ' ' :: stringifyChars v (d + 1)
        ++ stringifyMembers kvs d)

end

/-- `JSON.stringify(v, null, 2)`, the form `POST /api/business/save` writes. -/
def stringifyPretty (v : Json) : String := String.mk (stringifyChars v 0)

mutual

/-- Characters of compact `JSON.stringify(v)` (no indent argument), the form
the LLM proxy forwards. -/
def compactChars : Json → List Char
  | .null => 'n' :: 'u' :: 'l' :: 'l' :: []
  | .bool true => 't' :: 'r' :: 'u' :: 'e' :: []
  | .bool false => 'f' :: 'a' :: 'l' :: 's' :: 'e' :: []
  | .num n => intChars n
  | .str s => quoteChars s
  | .arr [] => '[' :: ']' :: []
  | .arr (x :: xs) => '[' :: (compactChars x ++ compactElems xs ++ [']'])
  | .obj [] => '\x7b' :: '\x7d' :: []
  | .obj ((k, v) :: kvs) =>
      '\x7b' :: (quoteChars k ++ ':' :: compactChars v ++ compactMembers kvs ++ ['\x7d'])

/-- Remaining array elements of a compact stringify. -/
def compactElems : List Json → List Char
  | [] => []
  | x :: xs => ',' :: (compactChars x ++ compactElems xs)

/-- Remaining object members of a compact stringify. -/
def compactMembers : List (String × Json) → List Char
  | [] => []
  | (k, v) :: kvs => ',' :: (quoteChars k ++ ':' :: compactChars v ++ compactMembers kvs)

end

/-- Compact `JSON.stringify(v)`. -/
def stringifyCompact (v : Json) : String := String.mk (compactChars v)

/-- JSON insignificant whitespace. -/
def isWs (c : Char) : Bool := c = ' ' || c = '\n' || c = '\r' || c = '\t'

/-- Drop leading JSON whitespace. -/
def skipWs : List Char → List Char
  | [] => []
  | c :: cs => if isWs c then skipWs cs else c :: cs

/-- Value of a hexadecimal digit character. -/
def hexVal (c : Char) : Option Nat :=
  if 48 ≤ c.toNat ∧ c.toNat ≤ 57 then some (c.toNat - 48)
  else if 97 ≤ c.toNat ∧ c.toNat ≤ 102 then some (c.toNat - 87)
  else if 65 ≤ c.toNat ∧ c.toNat ≤ 70 then some (c.toNat - 55)
  else none

/-- Single-character JSON string escapes. -/
def unescapeChar (c : Char) : Option Char :=
  if c = '"' then some '"'
  else if c = '\\' then some '\\'
  else if c = '/' then some '/'
  else if c = 'b' then some '\x08'
  else if c = 'f' then some '\x0c'
  else if c = 'n' then some '\n'
  else if c = 'r' then some '\r'
  else if c = 't' then some '\t'
  else none

/-- Prepend a decoded character to the content of a string-body parse. -/
def consOut (c : Char) : Option (List Char × List Char) → Option (List Char × List Char)
  | some (content, rest) => some (c :: content, rest)
  | none => none

mutual

/-- Parse the body of a JSON string literal (after the opening quote),
returning the decoded characters and the input after the closing quote.
Raw control characters are rejected, as in `JSON.parse`. -/
def parseStringBody : List Char → Option (List Char × List Char)
  | [] => none
  | c :: cs =>
      if c = '"' then some ([], cs)
      else if c = '\\' then parseEscape cs
      else if c.toNat < 32 then none
      else consOut c (parseStringBody cs)

/-- Decode one backslash escape (the backslash is already consumed). -/
def parseEscape : List Char → Option (List Char × List Char)
  | [] => none
  | e :: cs =>
      if e = 'u' then parseHexEsc cs
      else
        match unescapeChar e with
        | some u => consOut u (parseStringBody cs)
        | none => none

/-- Decode the four hex digits of a `\uXXXX` escape. -/
def parseHexEsc : List Char → Option (List Char × List Char)
  | h1 :: h2 :: h3 :: h4 :: cs =>
      match hexVal h1, hexVal h2, hexVal h3, hexVal h4 with
      | some a, some b, some hc, some hd =>
          consOut (Char.ofNat (a * 4096 + b * 256 + hc * 16 + hd)) (parseStringBody cs)
      | _, _, _, _ => none
  | _ => none

end

/-- Greedily read decimal digits, accumulating their value. -/
def parseDigitsAux (acc : Nat) : List Char → Nat × List Char
  | [] => (acc, [])
  | c :: cs =>
      if c.isDigit then parseDigitsAux (acc * 10 + (c.toNat - 48)) cs
      else (acc, c :: cs)

/-- Parse the digits after a leading minus sign. -/
def parseNegInt : List Char → Option (Int × List Char)
  | [] => none
  | c :: cs =>
      if c.isDigit then
        let p := parseDigitsAux 0 (c :: cs)
        some (-(p.1 : Int), p.2)
      else none

/-- Parse an optionally-negated decimal integer.  Fractions and exponents are
out of scope of the integer number model (see the file header). -/
def parseIntVal : List Char → Option (Int × List Char)
  | [] => none
  | c :: cs =>
      if c = '-' then parseNegInt cs
      else if c.isDigit then
        let p := parseDigitsAux 0 (c :: cs)
        some ((p.1 : Int), p.2)
      else none

/-- Expect the given literal characters at the head of the input and return
the remainder (used for `null`, `true`, `false`). -/
def expectLit : List Char → List Char → Option (List Char)
  | [], cs => some cs
  | _ :: _, [] => none
  | l :: ls, c :: cs => if c = l then expectLit ls cs else none

mutual

/-- Recursive-descent JSON value reader (fuelled; `jsonParse` supplies enough
fuel for any input it is given). -/
def parseVal : Nat → List Char → Option (Json × List Char)
  | 0, _ => none
  | fuel + 1, cs0 =>
      match skipWs cs0 with
      | [] => none
      | c :: rest =>
          if c = 'n' then
            match expectLit ['u', 'l', 'l'] rest with
            | some r => some (.null, r)
            | none => none
          else if c = 't' then
            match expectLit ['r', 'u', 'e'] rest with
            | some r => some (.bool true, r)
            | none => none
          else if c = 'f' then
            match expectLit ['a', 'l', 's', 'e'] rest with
            | some r => some (.bool false, r)
            | none => none
          else if c = '"' then
            match parseStringBody rest with
            | some (content, r) => some (.str (String.mk content), r)
            | none => none
          else if c = '[' then
            match skipWs rest with
            | [] => none
            | c2 :: r =>
                if c2 = ']' then some (.arr [], r)
                else
                  match parseVal fuel (c2 :: r) with
                  | some (v, r1) =>
                      match parseElems fuel r1 with
                      | some (vs, r2) => some (.arr (v :: vs), r2)
                      | none => none
                  | none => none
          else if c = '\x7b' then
            match skipWs rest with
            | [] => none
            | c2 :: r =>
                if c2 = '\x7d' then some (.obj [], r)
                else if c2 = '"' then
                  match parseStringBody r with
                  | some (kchars, r1) =>
                      match skipWs r1 with
                      | [] => none
                      | c3 :: r2 =>
                          if c3 = ':' then
                            match parseVal fuel r2 with
                            | some (v, r3) =>
                                match parseMembers fuel r3 with
                                | some (kvs, r4) =>
                                    some (.obj ((String.mk kchars, v) :: kvs), r4)
                                | none => none
                            | none => none
                          else none
                  | none => none
                else none
          else
            match parseIntVal (c :: rest) with
            | some (n, r) => some (.num n, r)
            | none => none

/-- Read the remaining elements of an array, consuming the closing bracket. -/
def parseElems : Nat → List Char → Option (List Json × List Char)
  | 0, _ => none
  | fuel + 1, cs =>
      match skipWs cs with
      | [] => none
      | c :: r =>
          if c = ']' then some ([], r)
          else if c = ',' then
            match parseVal fuel r with
            | some (v, r1) =>
                match parseElems fuel r1 with
                | some (vs, r2) => some (v :: vs, r2)
                | none => none
            | none => none
          else none

/-- Read the remaining members of an object, consuming the closing brace. -/
def parseMembers : Nat → List Char → Option (List (String × Json) × List Char)
  | 0, _ => none
  | fuel + 1, cs =>
      match skipWs cs with
      | [] => none
      | c :: r =>
          if c = '\x7d' then some ([], r)
          else if c = ',' then
            match skipWs r with
            | [] => none
            | c2 :: r1 =>
                if c2 = '"' then
                  match parseStringBody r1 with
                  | some (kchars, r2) =>
                      match skipWs r2 with
                      | [] => none
                      | c3 :: r3 =>
                          if c3 = ':' then
                            match parseVal fuel r3 with
                            | some (v, r4) =>
                                match parseMembers fuel r4 with
                                | some (kvs, r5) => some ((String.mk kchars, v) :: kvs, r5)
                                | none => none
                            | none => none
                          else none
                  | none => none
                else none
          else none

end

mutual

/-- An upper bound on the `parseVal` fuel consumed when re-reading a
serialized value (each constructor costs one unit). -/
def jsonFuel : Json → Nat
  | .null => 1
  | .bool _ => 1
  | .num _ => 1
  | .str _ => 1
  | .arr [] => 1
  | .arr (x :: xs) => 1 + jsonFuel x + elemsFuel xs
  | .obj [] => 1
  | .obj ((_, v) :: kvs) => 1 + jsonFuel v + membersFuel kvs

/-- Fuel bound for `parseElems` on the remaining elements. -/
def elemsFuel : List Json → Nat
  | [] => 1
  | x :: xs => 1 + jsonFuel x + elemsFuel xs

/-- Fuel bound for `parseMembers` on the remaining members. -/
def membersFuel : List (String × Json) → Nat
  | [] => 1
  | (_, v) :: kvs => 1 + jsonFuel v + membersFuel kvs

end

/-- The input left after a serialized number must not begin with another
digit, or the greedy digit reader would swallow it. -/
def numStop : List Char → Prop
  | [] => True
  | c :: _ => c.isDigit = false

/-- `JSON.parse`: a whole-input JSON read, `none` on any syntax error (the
server catches the exception and falls back to `null`). -/
def jsonParse (s : String) : Option Json :=
  match parseVal (s.data.length + 1) s.data with
  | some (v, rest) => if skipWs rest = [] then some v else none
  | none => none

mutual

/-- No object in the value has two members with the same key: the values that
can arise from a JavaScript object (plain `JSON.stringify` input). -/
def noDupKeys : Json → Bool
  | .null => true
  | .bool _ => true
  | .num _ => true
  | .str _ => true
  | .arr xs => noDupKeysElems xs
  | .obj kvs =>
      ((kvs.map Prod.fst).eraseDups.length == (kvs.map Prod.fst).length)
        && noDupKeysMembers kvs

/-- `noDupKeys` over array elements. -/
def noDupKeysElems : List Json → Bool
  | [] => true
  | x :: xs => noDupKeys x && noDupKeysElems xs

/-- `noDupKeys` over object member values. -/
def noDupKeysMembers : List (String × Json) → Bool
  | [] => true
  | (_, v) :: kvs => noDupKeys v && noDupKeysMembers kvs

end

/-! ## Business-config persistence (`POST /api/business/save`, `loadBusinessConfig`,
`GET /api/business/load`) -/

/-- The save handler's acceptance test `config && typeof config === "object"`
(in JavaScript `typeof null` is also `"object"`, but `null` is falsy). -/
def saveAccepts (config : Json) : Bool :=
  config.truthy &&
    (match config with
     | .null => true
     | .arr _ => true
     | .obj _ => true
     | _ => false)

/-- `POST /api/business/save`: returns the HTTP status and the new contents of
`business_config.json` (`none` models a missing file). -/
def saveBusinessConfig (file : Option String) (config : Json) : Nat × Option String :=
  if saveAccepts config then (200, some (stringifyPretty config))
  else (400, file)

/-- `loadBusinessConfig` composed with `GET /api/business/load`: read the file
if it exists, `JSON.parse` it, and fall back to `null` (here `none`) when the
file is missing or unparseable. -/
def loadBusinessConfig (file : Option String) : Option Json :=
  match file with
  | none => none
  | some s => jsonParse s

/-! ## The prompt builder `buildSystemPrompt` -/

/-- `businessInfo`: all fields are read through JavaScript truthiness, so they
are optional. -/
structure BusinessInfo where
  name : Option String
  description : Option String
  phone : Option String
  email : Option String
  address : Option String

/-- One entry of `config.services`. -/
structure Service where
  name : String
  duration : Option Int
  price : Option Int
  description : Option String

/-- One entry of `config.hours` (source keys `enabled`, `open`, `close`;
`open` is a Lean keyword, hence `openTime`/`closeTime`). -/
structure DayHours where
  enabled : Bool
  openTime : String
  closeTime : String

/-- `config.hours`, keyed by the seven `dayNames`. -/
structure WeekHours where
  monday : Option DayHours
  tuesday : Option DayHours
  wednesday : Option DayHours
  thursday : Option DayHours
  friday : Option DayHours
  saturday : Option DayHours
  sunday : Option DayHours

/-- `config.bookingRules`. -/
structure BookingRules where
  minNotice : Option Int
  maxAdvance : Option Int
  defaultDuration : Option Int
  bufferTime : Option Int

/-- `config.pricing`. -/
structure Pricing where
  currency : Option String
  taxRate : Option Int

/-- The persisted `BusinessConfig` document, as `buildSystemPrompt` reads it. -/
structure BusinessConfig where
  businessInfo : Option BusinessInfo
  services : Option (List Service)
  hours : Option WeekHours
  bookingRules : Option BookingRules
  pricing : Option Pricing

/-- `{}` for `config.hours || {}`. -/
def emptyWeek : WeekHours := ⟨none, none, none, none, none, none, none⟩

/-- `{}` for `config.bookingRules || {}`. -/
def emptyRules : BookingRules := ⟨none, none, none, none⟩

/-- `{}` for `config.pricing || {}`. -/
def emptyPricing : Pricing := ⟨none, none⟩

/-- JavaScript `o || d` for an optional string (`""` is falsy). -/
def strOr (o : Option String) (d : String) : String :=
  match o with
  | some s => if s = "" then d else s
  | none => d

/-- JavaScript `o || d` for an optional integer (`0` is falsy). -/
def intOr (o : Option Int) (d : Int) : Int :=
  match o with
  | some n => if n = 0 then d else n
  | none => d

/-- The `dayNames` array of the source. -/
def dayNames : List String :=
  ["monday", "tuesday", "wednesday", "thursday", "friday", "saturday", "sunday"]

/-- `hours[d]` for a day-name key. -/
def hoursGet (h : WeekHours) (d : String) : Option DayHours :=
  if d = "monday" then h.monday
  else if d = "tuesday" then h.tuesday
  else if d = "wednesday" then h.wednesday
  else if d = "thursday" then h.thursday
  else if d = "friday" then h.friday
  else if d = "saturday" then h.saturday
  else if d = "sunday" then h.sunday
  else none

/-- `hours[d]?.enabled` truthiness. -/
def dayEnabled (h : WeekHours) (d : String) : Bool :=
  match hoursGet h d with
  | some dh => dh.enabled
  | none => false

/-- `d.charAt(0).toUpperCase() + d.slice(1)`. -/
def capitalize (s : String) : String :=
  match s.data with
  | [] => ""
  | c :: cs => String.mk (c.toUpper :: cs)

/-- Zero-padded two-digit fraction for `toFixed(2)`. -/
def pad2 (n : Int) : String :=
  if n < 10 then "0" ++ toString n else toString n

/-- `(price * (1 + taxRate / 100)).toFixed(2)` computed exactly: the argument
is the total in hundredths (`price * (100 + taxRate)`), positive at both call
guards (`price > 0`, `taxRate > 0`).  Exact hundredths arithmetic stands in
for IEEE doubles here (file header). -/
def toFixed2 (hundredths : Int) : String :=
  toString (hundredths / 100) ++ "." ++ pad2 (hundredths % 100)

/-- The default prompt `process.env.AGENT_SYSTEM_PROMPT || "You are a helpful
AI receptionist. ..."` used when the config has no business name. -/
def defaultSystemPrompt (envPrompt : Option String) : String :=
  strOr envPrompt
    "You are a helpful AI receptionist. You can check availability, book appointments, and cancel appointments."

/-- The part of a service's line after `"\n{i+1}. {name}"`: optional duration,
price (with tax total when `taxRate > 0`), and description. -/
def serviceExtras (currency : String) (taxRate : Int) (s : Service) : String :=
  (match s.duration with
   | some dur => if dur != 0 then " — " ++ toString dur ++ " minutes" else ""
   | none => "")
  ++ (match s.price with
      | some pr =>
          if pr > 0 then
            " — " ++ currency ++ " " ++ toString pr
              ++ (if taxRate > 0 then
                    " (+ " ++ toString taxRate ++ "% tax = " ++ currency ++ " "
                      ++ toFixed2 (pr * (100 + taxRate)) ++ " total)"
                  else "")
          else ""
      | none => "")
  ++ (match s.description with
      | some ds => if ds != "" then ". " ++ ds else ""
      | none => "")

/-- One iteration of the services loop: `\n{i+1}. {name}` plus the extras. -/
def serviceLine (currency : String) (taxRate : Int) (i : Nat) (s : Service) : String :=
  "\n" ++ toString (i + 1) ++ ". " ++ s.name ++ serviceExtras currency taxRate s

/-- The whole `services.forEach` output, one line per service in input order. -/
def servicesBlock (currency : String) (taxRate : Int) (services : List Service) : String :=
  String.join (services.enum.map (fun p => serviceLine currency taxRate p.1 p.2))

/-- The `## Services & Pricing` heading line. -/
def servicesHeader (currency : String) (taxRate : Int) : String :=
  "\n\n## Services & Pricing (currency: " ++ currency
    ++ (if taxRate > 0 then ", +" ++ toString taxRate ++ "% tax" else "") ++ ")"

/-- The `## Services & Pricing` (or fallback `## Services`) section. -/
def servicesSection (currency : String) (taxRate : Int) (services : List Service) : String :=
  if services.length > 0 then
    servicesHeader currency taxRate ++ servicesBlock currency taxRate services
  else
    "\n\n## Services\n- No specific services have been configured. Let the caller know and take a message."

/-- A `\n- Label: value` line emitted only when the optional value is truthy. -/
def optLine (pre : String) (o : Option String) : String :=
  match o with
  | some s => if s = "" then "" else pre ++ s
  | none => ""

/-- The identity sentence plus the `## Current Date & Time` section. -/
def identityPart (bi : BusinessInfo) (nm currentDate currentTime : String) : String :=
  "You are " ++ nm ++ "'s AI receptionist. Your job is to answer questions about the business and manage appointments on the owner's behalf."
  ++ (match bi.description with
      | some ds => if ds != "" then " The business is: " ++ ds ++ "." else ""
      | none => "")
  ++ "\n\n## Current Date & Time\nToday is " ++ currentDate ++ " and the current time is " ++ currentTime
  ++ ". Always refer to today by its full name (e.g., \"this Friday\" or \"today, Wednesday\") when discussing dates with the caller. Use this when reasoning about appointment dates, availability, and scheduling."

/-- The `## Business Details` section. -/
def detailsPart (bi : BusinessInfo) (nm : String) : String :=
  "\n\n## Business Details"
  ++ "\n- Business name: " ++ nm
  ++ optLine "\n- Phone: " bi.phone
  ++ optLine "\n- Email: " bi.email
  ++ optLine "\n- Address: " bi.address

/-- The `## Working Hours` section (empty when no day is enabled).  The inner
`none` branch is unreachable: `openDays` only lists days whose hours entry is
present and enabled. -/
def hoursSection (h : WeekHours) : String :=
  let openDays := dayNames.filter (fun d => dayEnabled h d)
  let closedDays := dayNames.filter (fun d => !(dayEnabled h d))
  if openDays.length > 0 then
    "\n\n## Working Hours"
    ++ String.join (openDays.map (fun d =>
          match hoursGet h d with
          | some dh => "\n- " ++ capitalize d ++ ": " ++ dh.openTime ++ " – " ++ dh.closeTime
          | none => ""))
    ++ (if closedDays.length > 0 then
          "\n- Closed on: " ++ String.intercalate ", " (closedDays.map capitalize)
        else "")
  else ""

/-- The `## Appointment Rules` section. -/
def rulesSection (rules : BookingRules) : String :=
  "\n\n## Appointment Rules"
  ++ "\n- Appointments must be booked at least " ++ toString (intOr rules.minNotice 1) ++ " hour(s) in advance."
  ++ "\n- Bookings are accepted up to " ++ toString (intOr rules.maxAdvance 30) ++ " days in advance."
  ++ "\n- Default appointment length is " ++ toString (intOr rules.defaultDuration 30) ++ " minutes."
  ++ (match rules.bufferTime with
      | some bt => if bt > 0 then "\n- There is a " ++ toString bt ++ "-minute gap between appointments." else ""
      | none => "")

/-- The fixed `## How to Handle Calls` section. -/
def callHandlingSection : String :=
  "\n\n## How to Handle Calls"
  ++ "\nAlways answer naturally as a human receptionist would. Never narrate or describe what you are doing internally."
  ++ "\nNever say things like \"let me check the calendar\", \"I am running a search\", \"I am calling a function\", or describe any technical process."
  ++ "\nWhen a caller wants to BOOK an appointment:"
  ++ "\n  1. Ask which service they want."
  ++ "\n  2. Ask for their preferred date."
  ++ "\n  3. Silently look up availability, then tell the caller which time slots are open."
  ++ "\n  4. Confirm the chosen time with the caller."
  ++ "\n  5. Ask for their full name and phone number."
  ++ "\n  6. Silently create the booking, then confirm the appointment details to the caller."
  ++ "\n  7. Read back the confirmed date, time, and service naturally — like \"Perfect, you're all set for Tuesday the 24th at 10 AM for a Classic Haircut.\""
  ++ "\nWhen a caller wants to CANCEL an appointment:"
  ++ "\n  1. Ask for their name and the date of the appointment."
  ++ "\n  2. Silently find and remove it, then confirm the cancellation conversationally."
  ++ "\nWhen a caller asks about PRICE, give the exact price from the services list above."
  ++ "\nWhen a caller asks about HOURS, tell them the working hours above."
  ++ "\nIf you do not know the answer, say you will pass the message to the team."

/-- The fixed `## Response Style — CRITICAL RULES` section. -/
def voiceStyleSection : String :=
  "\n\n## Response Style — CRITICAL RULES"
  ++ "\nThis is a live phone call. You are a warm, professional human receptionist. Follow these rules on every single reply:"
  ++ "\n- MAXIMUM 1-2 SHORT sentences per reply. Never more. If you have more to say, pause and let the customer respond first."
  ++ "\n- Ask only ONE question at a time. Never stack multiple questions in one turn."
  ++ "\n- Use everyday spoken language. Short words, short sentences. No formal or written-style phrasing."
  ++ "\n- NEVER mention tools, functions, APIs, parameters, databases, or any technical term."
  ++ "\n- NEVER say \"I'm checking the system\", \"I'm running a query\", \"let me use the calendar tool\", or anything similar."
  ++ "\n- NEVER repeat back raw data like dates in ISO format or parameter names."
  ++ "\n- NEVER describe your internal process. Speak only the outcome as a human would."
  ++ "\n- Do NOT use bullet points, markdown, asterisks, or numbered lists."
  ++ "\n- Do NOT say \"As an AI\", \"Certainly!\", \"Absolutely!\", \"Of course!\", or any robotic filler."
  ++ "\n- Refer to yourself as \"we\" when speaking about the business, or just speak naturally without referencing yourself."
  ++ "\n- When listing available times, read out a maximum of 4-5 options, naturally: \"We have 10, 11, and 2 o'clock — which works for you?\""
  ++ "\n- Confirm bookings in one natural sentence: \"Perfect, you're booked for Tuesday the 24th at 10 for a Classic Haircut — see you then!\""
  ++ "\n- Bad example: \"I will now proceed to check availability for the date 2026-02-24 using our scheduling system.\""
  ++ "\n- Good example: \"Sure, what day works for you?\""
  ++ "\n- Bad example: \"I have successfully booked an appointment with the following parameters: service=Haircut, date=2026-02-24.\""
  ++ "\n- Good example: \"Done! You're all set for Tuesday the 24th at 10 AM.\""
  ++ "\nAlways sound like a real person who genuinely wants to help. Be warm but efficient."

/-- The prompt for a config with a truthy business name `nm`. -/
def promptBody (bi : BusinessInfo) (nm : String) (services : List Service)
    (hours : WeekHours) (rules : BookingRules) (pricing : Pricing)
    (currentDate currentTime : String) : String :=
  let currency := strOr pricing.currency "USD"
  let taxRate := intOr pricing.taxRate 0
  identityPart bi nm currentDate currentTime
    ++ detailsPart bi nm
    ++ servicesSection currency taxRate services
    ++ hoursSection hours
    ++ rulesSection rules
    ++ callHandlingSection
    ++ voiceStyleSection

/-- `buildSystemPrompt(config)`.  The ambient inputs the source reads
impurely are explicit parameters: `envPrompt` is
`process.env.AGENT_SYSTEM_PROMPT`, and `currentDate`/`currentTime` are the
two `new Date()` locale strings. -/
def buildSystemPrompt (config : Option BusinessConfig) (envPrompt : Option String)
    (currentDate currentTime : String) : String :=
  match config with
  | none => defaultSystemPrompt envPrompt
  | some cfg =>
      match cfg.businessInfo with
      | none => defaultSystemPrompt envPrompt
      | some bi =>
          match bi.name with
          | none => defaultSystemPrompt envPrompt
          | some nm =>
              if nm = "" then defaultSystemPrompt envPrompt
              else
                promptBody bi nm (cfg.services.getD []) (cfg.hours.getD emptyWeek)
                  (cfg.bookingRules.getD emptyRules) (cfg.pricing.getD emptyPricing)
                  currentDate currentTime

/-! ## The `POST /api/start-agent` handler -/

/-- One outbound Agora REST call made by the start-agent handler. -/
inductive AgoraCall where
  | join
  | leave (agentId : String)
deriving DecidableEq

/-- What the handler observes of one Agora join response: the HTTP status and
the `agent_id` field of the parsed body (`none` when absent or when the body
fails to parse — the source swallows that with `.catch(() => ({}))`). -/
structure JoinResult where
  status : Nat
  agentId : Option String

/-- `Response.ok`: status in the 200-299 range. -/
def joinOk (r : JoinResult) : Bool :=
  decide (200 ≤ r.status) && decide (r.status ≤ 299)

/-- The destructured request body `{ channel, uid, remoteUids }`; `none` is
JavaScript `undefined`. -/
structure StartAgentBody where
  channel : Option Json
  uid : Option Json
  remoteUids : Option Json

/-- Negation of `!channel || typeof channel !== "string" || channel.length > 64`. -/
def validChannel (c : Option Json) : Bool :=
  match c with
  | some (.str s) => s != "" && decide (s.length ≤ 64)
  | _ => false

/-- Negation of `uid === undefined || uid === null`. -/
def validUid (u : Option Json) : Bool :=
  match u with
  | none => false
  | some .null => false
  | some _ => true

/-- Negation of `remoteUids && !Array.isArray(remoteUids)`. -/
def validRemoteUids (r : Option Json) : Bool :=
  match r with
  | none => true
  | some v =>
      if v.truthy then
        match v with
        | .arr _ => true
        | _ => false
      else true

/-- What the start-agent handler sends back and which Agora calls it made. -/
structure StartAgentResult where
  status : Nat
  errorMsg : Option String
  agentId : Option String
  agoraCalls : List AgoraCall

/-- The `POST /api/start-agent` handler.  `join1` and `join2` are the results
of the first and (when reached) retried vendor join call; the 409 branch
extracts the stale agent id, best-effort leaves it, and retries exactly once,
after which the final response's status decides the reply. -/
def startAgent (b : StartAgentBody) (join1 join2 : JoinResult) : StartAgentResult :=
  if !(validChannel b.channel) then ⟨400, some "Invalid channel name.", none, []⟩
  else if !(validUid b.uid) then ⟨400, some "Missing uid.", none, []⟩
  else if !(validRemoteUids b.remoteUids) then
    ⟨400, some "remoteUids must be an array.", none, []⟩
  else
    let afterConflict : JoinResult × List AgoraCall :=
      if join1.status = 409 then
        match join1.agentId with
        | some staleId =>
            if staleId != "" then
              (join2, [AgoraCall.join, AgoraCall.leave staleId, AgoraCall.join])
            else (join2, [AgoraCall.join, AgoraCall.join])
        | none => (join2, [AgoraCall.join, AgoraCall.join])
      else (join1, [AgoraCall.join])
    let finalRes := afterConflict.1
    let calls := afterConflict.2
    if joinOk finalRes then ⟨200, none, finalRes.agentId, calls⟩
    else ⟨finalRes.status, some ("Agora API error: " ++ toString finalRes.status), none, calls⟩

/-! ## The agent-event relay (`broadcastAgentLog`, `POST /api/agent-log`,
`GET /api/agent-events`) -/

/-- One event of the agent log, as published by `POST /api/agent-log`. -/
structure AgentLogEvent where
  type : Json
  tool : Option Json
  label : Option Json
  args : Option Json
  ts : Nat

/-- The relay's process-wide state: the `agentLogBuffer` ring buffer and, for
each connected SSE subscriber, the full sequence of events written to it. -/
structure RelayState where
  agentLogBuffer : List AgentLogEvent
  subscribers : List (List AgentLogEvent)

/-- The state at server start: empty buffer, no subscribers. -/
def relayInit : RelayState := ⟨[], []⟩

/-- `broadcastAgentLog(event)`: write the event to every open subscriber, push
it onto the buffer, and shift the buffer when it exceeds 50 entries. -/
def broadcastAgentLog (st : RelayState) (e : AgentLogEvent) : RelayState :=
  let buf := st.agentLogBuffer ++ [e]
  { agentLogBuffer := if buf.length > 50 then buf.tail else buf
  , subscribers := st.subscribers.map (fun written => written ++ [e]) }

/-- `GET /api/agent-events`: the new subscriber immediately receives the whole
buffer as replay, then is registered for live events. -/
def subscribeAgentEvents (st : RelayState) : RelayState :=
  { agentLogBuffer := st.agentLogBuffer
  , subscribers := st.subscribers ++ [st.agentLogBuffer] }

/-- An externally-triggered relay transition. -/
inductive RelayOp where
  | publish (e : AgentLogEvent)
  | subscribe

/-- Apply one relay operation. -/
def relayStep (st : RelayState) : RelayOp → RelayState
  | .publish e => broadcastAgentLog st e
  | .subscribe => subscribeAgentEvents st

/-- Run the relay from server start through a sequence of operations. -/
def relayRun (ops : List RelayOp) : RelayState :=
  ops.foldl relayStep relayInit

/-- The events published by a sequence of operations, in order. -/
def publishedEvents (ops : List RelayOp) : List AgentLogEvent :=
  ops.filterMap (fun op => match op with | .publish e => some e | .subscribe => none)

/-- The destructured `POST /api/agent-log` body `{ type, tool, label, args }`. -/
structure AgentLogBody where
  type : Option Json
  tool : Option Json
  label : Option Json
  args : Option Json

/-- The `POST /api/agent-log` handler: 400 on a falsy `type`, otherwise
publish `{type, tool, label, args, ts: Date.now()}` (`ts` is the explicit
clock input). -/
def agentLogHandler (body : AgentLogBody) (ts : Nat) (st : RelayState) : Nat × RelayState :=
  match body.type with
  | some t =>
      if t.truthy then (200, broadcastAgentLog st ⟨t, body.tool, body.label, body.args, ts⟩)
      else (400, st)
  | none => (400, st)

/-! ## The CORS origin callback -/

/-- The default origin allow-list (no `CORS_ORIGIN` env override). -/
def defaultAllowedOrigins : List String :=
  ["http://localhost:5173", "http://localhost:5174", "http://127.0.0.1:5173",
   "http://localhost:5001"]

/-- The `origin(origin, cb)` callback of the cors middleware, returning the
allow decision it passes to `cb`.  A missing or empty origin is allowed, an
allow-listed origin is allowed, and the final fallback allows everything
else too. -/
def corsAllow (allowedOrigins : List String) (origin : Option String) : Bool :=
  match origin with
  | none => true
  | some o =>
      if o = "" then true
      else if allowedOrigins.contains o then true
      else true

/-! ## The LLM reverse proxy (`POST /api/llm/chat/completions`) -/

/-- An incoming chat-completion request: the headers as Node delivers them
(names lower-cased), the raw received body bytes, and the body as
`express.json()` parsed it. -/
structure IncomingChatRequest where
  headers : List (String × String)
  rawBody : String
  body : Json

/-- First value of a header, by exact (already lower-cased) name. -/
def lookupHeader (hs : List (String × String)) (k : String) : Option String :=
  match hs.find? (fun kv => kv.1 == k) with
  | some kv => some kv.2
  | none => none

/-- The outbound fetch the proxy performs. -/
structure ForwardedRequest where
  url : String
  method : String
  headers : List (String × String)
  body : String

/-- The upstream fetch of the proxy: fixed `Content-Type`, the incoming
`authorization` header spread in only when it is truthy (the source guards
the spread with `req.headers["authorization"] ? ... : {}`, so an
empty-valued header is dropped), and `JSON.stringify(req.body)` as body. -/
def proxyForward (customLlmUrl : String) (req : IncomingChatRequest) : ForwardedRequest :=
  { url := customLlmUrl
  , method := "POST"
  , headers := ("Content-Type", "application/json") ::
      (match lookupHeader req.headers "authorization" with
       | some v => if v = "" then [] else [("Authorization", v)]
       | none => [])
  , body := stringifyCompact req.body }

/-- What the proxy observes of the upstream response. -/
structure UpstreamResponse where
  status : Nat
  headers : List (String × String)
  chunks : List String

/-- The headers the upstream `forEach` loop excludes before `setHeader`. -/
def hopByHopExcluded : List String :=
  ["content-encoding", "transfer-encoding", "connection"]

/-- JavaScript `toLowerCase()` on an ASCII header name, modelled directly on
the character list. -/
def lowerStr (s : String) : String :=
  String.mk (s.data.map (fun c =>
    if 65 ≤ c.toNat ∧ c.toNat ≤ 90 then Char.ofNat (c.toNat + 32) else c))

/-- The upstream-header copy loop: keep every header whose lower-cased name is
not excluded, in upstream order. -/
def copyHeaders : List (String × String) → List (String × String)
  | [] => []
  | (k, v) :: hs =>
      if hopByHopExcluded.contains (lowerStr k) then copyHeaders hs
      else (k, v) :: copyHeaders hs

/-- `Readable.fromWeb(upstream.body).pipe(res)`: each chunk is forwarded as it
arrives; the relay of a chunk depends only on the chunks already received. -/
def pipeChunks : List String → List String
  | [] => []
  | c :: cs => c :: pipeChunks cs

/-- The response the proxy sends for a given upstream response. -/
structure ProxyResponse where
  status : Nat
  headers : List (String × String)
  chunks : List String

/-- The proxy's response assembly: upstream status, filtered header copy,
piped body. -/
def proxyRespond (u : UpstreamResponse) : ProxyResponse :=
  ⟨u.status, copyHeaders u.headers, pipeChunks u.chunks⟩

/-! ## Helper lemmas: whitespace, digits, string escapes -/

theorem string_mk_data (s : String) : String.mk s.data = s := rfl

theorem skipWs_not_ws {c : Char} (h : isWs c = false) (cs : List Char) :
    skipWs (c :: cs) = c :: cs := by
  simp [skipWs, h]

theorem skipWs_ws {c : Char} (h : isWs c = true) (cs : List Char) :
    skipWs (c :: cs) = skipWs cs := by
  simp [skipWs, h]

theorem skipWs_replicate_space (n : Nat) (cs : List Char) :
    skipWs (List.replicate n ' ' ++ cs) = skipWs cs := by
  induction n with
  | zero => rfl
  | succ k ih => simpa [List.replicate_succ, skipWs, isWs] using ih

theorem skipWs_indent (d : Nat) (cs : List Char) :
    skipWs (indentChars d ++ cs) = skipWs cs :=
  skipWs_replicate_space _ _

theorem digitChar_props : ∀ m, m < 10 →
    (digitChar m).isDigit = true ∧ isWs (digitChar m) = false ∧
    digitChar m ≠ 'n' ∧ digitChar m ≠ 't' ∧ digitChar m ≠ 'f' ∧
    digitChar m ≠ '"' ∧ digitChar m ≠ '[' ∧ digitChar m ≠ '\x7b' ∧
    digitChar m ≠ '-' ∧ digitChar m ≠ ']' ∧ digitChar m ≠ '\x7d' ∧
    digitChar m ≠ ',' ∧ (digitChar m).toNat - 48 = m := by
  decide

theorem hexVal_hexDigitChar : ∀ m, m < 16 → hexVal (hexDigitChar m) = some m := by
  decide

theorem parseDigitsAux_map (ds : List Nat) :
    ∀ acc (rest : List Char), (∀ m ∈ ds, m < 10) → numStop rest →
      parseDigitsAux acc (ds.map digitChar ++ rest)
        = (ds.foldl (fun a m => a * 10 + m) acc, rest) := by
  induction ds with
  | nil =>
      intro acc rest _ hrest
      match rest with
      | [] => rfl
      | c :: cs =>
          have hc : c.isDigit = false := hrest
          simp [parseDigitsAux, hc]
  | cons m ds ih =>
      intro acc rest hds hrest
      have hm := hds m (by simp)
      obtain ⟨hdig, -, -, -, -, -, -, -, -, -, -, -, hval⟩ := digitChar_props m hm
      simp only [List.map_cons, List.cons_append, parseDigitsAux, hdig, if_true, hval]
      exact ih _ rest (fun x hx => hds x (by simp [hx])) hrest

theorem foldl_reverse_ofDigits (L : List Nat) (acc : Nat) :
    L.reverse.foldl (fun a m => a * 10 + m) acc
      = acc * 10 ^ L.length + Nat.ofDigits 10 L := by
  induction L generalizing acc with
  | nil => simp
  | cons x L ih =>
      simp only [List.reverse_cons, List.foldl_append, ih, List.foldl_cons, List.foldl_nil,
        Nat.ofDigits_cons, List.length_cons, pow_succ]
      ring

theorem parseDigitsAux_natChars (n : Nat) (rest : List Char) (hrest : numStop rest) :
    parseDigitsAux 0 (natChars n ++ rest) = (n, rest) := by
  by_cases h0 : n = 0
  · subst h0
    have h : natChars 0 = ([0]).map digitChar := rfl
    rw [h, parseDigitsAux_map [0] 0 rest (by decide) hrest]
    simp
  · have h : natChars n = ((Nat.digits 10 n).reverse).map digitChar := by
      simp [natChars, h0]
    rw [h, parseDigitsAux_map _ 0 rest
          (fun m hm => Nat.digits_lt_base (by norm_num) (List.mem_reverse.mp hm)) hrest,
        foldl_reverse_ofDigits]
    simp [Nat.ofDigits_digits]

theorem natChars_shape (n : Nat) : ∃ m tl, natChars n = digitChar m :: tl ∧ m < 10 := by
  by_cases h0 : n = 0
  · exact ⟨0, [], by subst h0; rfl, by norm_num⟩
  · have hne : (Nat.digits 10 n).reverse ≠ [] := by
      simp [Nat.digits_ne_nil_iff_ne_zero, h0]
    match hL : (Nat.digits 10 n).reverse with
    | [] => exact absurd hL hne
    | m :: ds =>
        refine ⟨m, ds.map digitChar, by simp [natChars, h0, hL], ?_⟩
        have : m ∈ Nat.digits 10 n := List.mem_reverse.mp (by simp [hL])
        exact Nat.digits_lt_base (by norm_num) this

theorem parseIntVal_roundtrip (n : Int) (rest : List Char) (hrest : numStop rest) :
    parseIntVal (intChars n ++ rest) = some (n, rest) := by
  obtain ⟨m, tl, hsh, hm⟩ := natChars_shape n.natAbs
  obtain ⟨hdig, -, -, -, -, -, -, -, hminus, -, -, -, -⟩ := digitChar_props m hm
  by_cases hneg : n < 0
  · have h : intChars n = '-' :: natChars n.natAbs := by simp [intChars, hneg]
    rw [h, List.cons_append, hsh]
    simp only [parseIntVal, reduceIte, List.cons_append, parseNegInt, hdig, if_true]
    rw [← List.cons_append, ← hsh, parseDigitsAux_natChars _ _ hrest]
    simp only [Option.some.injEq, Prod.mk.injEq, and_true]
    omega
  · have h : intChars n = natChars n.natAbs := by simp [intChars, hneg]
    rw [h, hsh, List.cons_append]
    simp only [parseIntVal, hminus, if_false, hdig, if_true]
    rw [← List.cons_append, ← hsh, parseDigitsAux_natChars _ _ hrest]
    simp only [Option.some.injEq, Prod.mk.injEq, and_true]
    omega

theorem parseStringBody_roundtrip (cs : List Char) (rest : List Char) :
    parseStringBody ((cs.map escapeChar).flatten ++ '"' :: rest) = some (cs, rest) := by
  induction cs with
  | nil => simp [parseStringBody]
  | cons c cs ih =>
      by_cases h1 : c = '"'
      · subst h1
        simp [escapeChar, parseStringBody, parseEscape, unescapeChar, consOut, ih]
      by_cases h2 : c = '\\'
      · subst h2
        simp [escapeChar, parseStringBody, parseEscape, unescapeChar, consOut, ih]
      by_cases h3 : c = '\x08'
      · subst h3
        simp [escapeChar, parseStringBody, parseEscape, unescapeChar, consOut, ih]
      by_cases h4 : c = '\x0c'
      · subst h4
        simp [escapeChar, parseStringBody, parseEscape, unescapeChar, consOut, ih]
      by_cases h5 : c = '\n'
      · subst h5
        simp [escapeChar, parseStringBody, parseEscape, unescapeChar, consOut, ih]
      by_cases h6 : c = '\r'
      · subst h6
        simp [escapeChar, parseStringBody, parseEscape, unescapeChar, consOut, ih]
      by_cases h7 : c = '\t'
      · subst h7
        simp [escapeChar, parseStringBody, parseEscape, unescapeChar, consOut, ih]
      by_cases h8 : c.toNat < 32
      · have hdiv : c.toNat / 16 < 16 := by omega
        have hmod : c.toNat % 16 < 16 := by omega
        have hesc : escapeChar c
            = ['\\', 'u', '0', '0', hexDigitChar (c.toNat / 16), hexDigitChar (c.toNat % 16)] := by
          simp [escapeChar, h1, h2, h3, h4, h5, h6, h7, h8]
        have hchar : Char.ofNat (0 * 4096 + 0 * 256 + c.toNat / 16 * 16 + c.toNat % 16) = c := by
          have h9 : 0 * 4096 + 0 * 256 + c.toNat / 16 * 16 + c.toNat % 16 = c.toNat := by
            omega
          rw [h9, Char.ofNat_toNat]
        have hchar2 : Char.ofNat (c.toNat / 16 * 16 + c.toNat % 16) = c := by
          have h9 : c.toNat / 16 * 16 + c.toNat % 16 = c.toNat := by omega
          rw [h9, Char.ofNat_toNat]
        simp only [List.map_cons, List.flatten_cons, hesc, List.cons_append,
          List.append_assoc, List.nil_append]
        rw [parseStringBody]
        simp only [reduceIte]
        rw [parseEscape]
        simp only [reduceIte]
        rw [parseHexEsc]
        simp only [hexVal_hexDigitChar _ hdiv, hexVal_hexDigitChar _ hmod,
          show hexVal '0' = some 0 from rfl, ih, consOut, hchar, hchar2, reduceIte]
        rw [if_neg (show ¬('\\' = '"') by decide)]
      · have hesc : escapeChar c = [c] := by
          simp [escapeChar, h1, h2, h3, h4, h5, h6, h7, h8]
        simp only [List.map_cons, List.flatten_cons, hesc, List.cons_append,
          List.append_assoc, List.nil_append, List.singleton_append]
        rw [parseStringBody]
        simp only [h1, h2, h8, if_false, ih, consOut]

/-! ## Helper lemmas: value-level round trip -/

theorem parseVal_cons_ws (fuel : Nat) {c : Char} (h : isWs c = true) (l : List Char) :
    parseVal fuel (c :: l) = parseVal fuel l := by
  cases fuel with
  | zero => rfl
  | succ f => simp only [parseVal, skipWs_ws h]

theorem parseVal_indent (fuel d : Nat) (l : List Char) :
    parseVal fuel (indentChars d ++ l) = parseVal fuel l := by
  cases fuel with
  | zero => rfl
  | succ f => simp only [parseVal, skipWs_indent]

theorem stringifyChars_shape (v : Json) (d : Nat) :
    ∃ c tl, stringifyChars v d = c :: tl ∧ isWs c = false ∧ c ≠ ']' ∧ c ≠ '\x7d' := by
  match v with
  | .null => exact ⟨'n', _, rfl, by decide, by decide, by decide⟩
  | .bool true => exact ⟨'t', _, rfl, by decide, by decide, by decide⟩
  | .bool false => exact ⟨'f', _, rfl, by decide, by decide, by decide⟩
  | .str s => exact ⟨'"', _, rfl, by decide, by decide, by decide⟩
  | .arr [] => exact ⟨'[', _, rfl, by decide, by decide, by decide⟩
  | .arr (x :: xs) => exact ⟨'[', _, rfl, by decide, by decide, by decide⟩
  | .obj [] => exact ⟨'\x7b', _, rfl, by decide, by decide, by decide⟩
  | .obj ((k, w) :: kvs) => exact ⟨'\x7b', _, rfl, by decide, by decide, by decide⟩
  | .num n =>
      obtain ⟨m, tl, hsh, hm⟩ := natChars_shape n.natAbs
      obtain ⟨-, hws, -, -, -, -, -, -, -, hbr1, hbr2, -, -⟩ := digitChar_props m hm
      by_cases hneg : n < 0
      · exact ⟨'-', natChars n.natAbs, by simp [stringifyChars, intChars, hneg], by decide,
          by decide, by decide⟩
      · exact ⟨digitChar m, tl, by simp [stringifyChars, intChars, hneg, hsh], hws,
          hbr1, hbr2⟩

theorem numStop_elems_head (xs : List Json) (d : Nat) (l : List Char) :
    numStop (stringifyElems xs d ++ '\n' :: l) := by
  cases xs with
  | nil =>
      simp only [stringifyElems, List.nil_append, numStop]
      decide
  | cons x xs =>
      simp only [stringifyElems, List.cons_append, numStop]
      decide

theorem numStop_members_head (kvs : List (String × Json)) (d : Nat) (l : List Char) :
    numStop (stringifyMembers kvs d ++ '\n' :: l) := by
  cases kvs with
  | nil =>
      simp only [stringifyMembers, List.nil_append, numStop]
      decide
  | cons kv kvs =>
      obtain ⟨k, v⟩ := kv
      simp only [stringifyMembers, List.cons_append, numStop]
      decide

mutual

theorem rtVal (v : Json) (d fuel : Nat) (rest : List Char)
    (hf : jsonFuel v ≤ fuel) (hrest : numStop rest) :
    parseVal fuel (stringifyChars v d ++ rest) = some (v, rest) := by
  match v, fuel with
  | .null, 0 => simp [jsonFuel] at hf
  | .null, f + 1 =>
      simp only [stringifyChars, List.cons_append, List.nil_append]
      rw [parseVal, skipWs_not_ws (by decide)]
      simp [expectLit]
  | .bool true, 0 => simp [jsonFuel] at hf
  | .bool true, f + 1 =>
      simp only [stringifyChars, List.cons_append, List.nil_append]
      rw [parseVal, skipWs_not_ws (by decide)]
      simp [expectLit]
  | .bool false, 0 => simp [jsonFuel] at hf
  | .bool false, f + 1 =>
      simp only [stringifyChars, List.cons_append, List.nil_append]
      rw [parseVal, skipWs_not_ws (by decide)]
      simp [expectLit]
  | .num n, 0 => simp [jsonFuel] at hf
  | .num n, f + 1 =>
      obtain ⟨m, tl, hsh, hm⟩ := natChars_shape n.natAbs
      obtain ⟨hdig, hws, hn, ht, hf2, hq, hbk, hbr, hminus, -, -, -, -⟩ :=
        digitChar_props m hm
      simp only [stringifyChars]
      by_cases hneg : n < 0
      · have h : intChars n = '-' :: natChars n.natAbs := by simp [intChars, hneg]
        rw [h, List.cons_append, parseVal, skipWs_not_ws (by decide)]
        simp only [reduceIte]
        rw [if_neg (by decide), if_neg (by decide), if_neg (by decide), if_neg (by decide),
          if_neg (by decide), if_neg (by decide)]
        rw [show ('-' :: (natChars n.natAbs ++ rest)) = intChars n ++ rest by rw [h]; simp]
        rw [parseIntVal_roundtrip n rest hrest]
      · have h : intChars n = natChars n.natAbs := by simp [intChars, hneg]
        rw [h, hsh, List.cons_append, parseVal, skipWs_not_ws hws]
        simp only [reduceIte]
        rw [if_neg hn, if_neg ht, if_neg hf2, if_neg hq, if_neg hbk, if_neg hbr]
        rw [show (digitChar m :: (tl ++ rest)) = intChars n ++ rest by rw [h, hsh]; simp]
        rw [parseIntVal_roundtrip n rest hrest]
  | .str s, 0 => simp [jsonFuel] at hf
  | .str s, f + 1 =>
      simp only [stringifyChars, quoteChars, List.cons_append, List.append_assoc,
        List.singleton_append, List.nil_append]
      rw [parseVal, skipWs_not_ws (by decide)]
      simp only [reduceIte, parseStringBody_roundtrip, string_mk_data]
      rw [if_neg (by decide), if_neg (by decide), if_neg (by decide)]
  | .arr [], 0 => simp [jsonFuel] at hf
  | .arr [], f + 1 =>
      simp only [stringifyChars, List.cons_append, List.singleton_append]
      rw [parseVal, skipWs_not_ws (by decide)]
      simp only [reduceIte]
      rw [if_neg (by decide), if_neg (by decide), if_neg (by decide), if_neg (by decide)]
      rw [skipWs_not_ws (by decide)]
      simp only [reduceIte]
      simp
  | .arr (x :: xs), 0 => simp [jsonFuel] at hf
  | .arr (x :: xs), f + 1 =>
      have hfx : jsonFuel x ≤ f := by simp only [jsonFuel] at hf; omega
      have hfe : elemsFuel xs ≤ f := by simp only [jsonFuel] at hf; omega
      obtain ⟨c0, tl, hx, hw0, hb1, hb2⟩ := stringifyChars_shape x (d + 1)
      simp only [stringifyChars, List.cons_append, List.append_assoc,
        List.singleton_append, List.nil_append]
      rw [parseVal, skipWs_not_ws (by decide)]
      simp only [reduceIte]
      rw [if_neg (by decide), if_neg (by decide), if_neg (by decide), if_neg (by decide)]
      rw [skipWs_ws (by decide), skipWs_indent, hx, List.cons_append, skipWs_not_ws hw0]
      simp only [reduceIte]
      rw [if_neg hb1]
      rw [← List.cons_append, ← hx]
      rw [rtVal x (d + 1) f
            (stringifyElems xs d ++ ('\n' :: (indentChars d ++ (']' :: rest)))) hfx
            (numStop_elems_head xs d (indentChars d ++ (']' :: rest)))]
      simp only [reduceIte]
      rw [rtElems xs d f rest hfe]
  | .obj [], 0 => simp [jsonFuel] at hf
  | .obj [], f + 1 =>
      simp only [stringifyChars, List.cons_append, List.singleton_append]
      rw [parseVal, skipWs_not_ws (by decide)]
      simp only [reduceIte]
      rw [if_neg (by decide), if_neg (by decide), if_neg (by decide), if_neg (by decide),
        if_neg (by decide)]
      rw [skipWs_not_ws (by decide)]
      simp only [reduceIte]
      simp
  | .obj ((k, v) :: kvs), 0 => simp [jsonFuel] at hf
  | .obj ((k, v) :: kvs), f + 1 =>
      have hfv : jsonFuel v ≤ f := by simp only [jsonFuel] at hf; omega
      have hfm : membersFuel kvs ≤ f := by simp only [jsonFuel] at hf; omega
      simp only [stringifyChars, quoteChars, List.cons_append, List.append_assoc,
        List.singleton_append, List.nil_append]
      rw [parseVal, skipWs_not_ws (by decide)]
      simp only [reduceIte]
      rw [if_neg (by decide), if_neg (by decide), if_neg (by decide), if_neg (by decide),
        if_neg (by decide)]
      rw [skipWs_ws (by decide), skipWs_indent, skipWs_not_ws (by decide)]
      simp only [reduceIte]
      rw [if_neg (by decide)]
      rw [parseStringBody_roundtrip k.data
            (':' :: ' ' :: (stringifyChars v (d + 1) ++
              (stringifyMembers kvs d ++ ('\n' :: (indentChars d ++ ('\x7d' :: rest))))))]
      simp only [reduceIte]
      rw [skipWs_not_ws (by decide)]
      simp only [reduceIte]
      rw [parseVal_cons_ws f (by decide)]
      rw [rtVal v (d + 1) f
            (stringifyMembers kvs d ++ ('\n' :: (indentChars d ++ ('\x7d' :: rest)))) hfv
            (numStop_members_head kvs d (indentChars d ++ ('\x7d' :: rest)))]
      simp only [reduceIte]
      rw [rtMembers kvs d f rest hfm]

theorem rtElems (xs : List Json) (d fuel : Nat) (rest : List Char)
    (hf : elemsFuel xs ≤ fuel) :
    parseElems fuel (stringifyElems xs d ++ ('\n' :: (indentChars d ++ (']' :: rest))))
      = some (xs, rest) := by
  match xs, fuel with
  | [], 0 => simp [elemsFuel] at hf
  | [], f + 1 =>
      simp only [stringifyElems, List.nil_append]
      rw [parseElems, skipWs_ws (by decide), skipWs_indent, skipWs_not_ws (by decide)]
      simp only [reduceIte]
  | x :: xs, 0 => simp [elemsFuel] at hf
  | x :: xs, f + 1 =>
      have hfx : jsonFuel x ≤ f := by simp only [elemsFuel] at hf; omega
      have hfe : elemsFuel xs ≤ f := by simp only [elemsFuel] at hf; omega
      simp only [stringifyElems, List.cons_append, List.append_assoc,
        List.singleton_append, List.nil_append]
      rw [parseElems, skipWs_not_ws (by decide)]
      simp only [reduceIte]
      rw [if_neg (by decide)]
      rw [parseVal_cons_ws f (by decide), parseVal_indent]
      rw [rtVal x (d + 1) f
            (stringifyElems xs d ++ ('\n' :: (indentChars d ++ (']' :: rest)))) hfx
            (numStop_elems_head xs d (indentChars d ++ (']' :: rest)))]
      simp only [reduceIte]
      rw [rtElems xs d f rest hfe]

theorem rtMembers (kvs : List (String × Json)) (d fuel : Nat) (rest : List Char)
    (hf : membersFuel kvs ≤ fuel) :
    parseMembers fuel
        (stringifyMembers kvs d ++ ('\n' :: (indentChars d ++ ('\x7d' :: rest))))
      = some (kvs, rest) := by
  match kvs, fuel with
  | [], 0 => simp [membersFuel] at hf
  | [], f + 1 =>
      simp only [stringifyMembers, List.nil_append]
      rw [parseMembers, skipWs_ws (by decide), skipWs_indent, skipWs_not_ws (by decide)]
      simp only [reduceIte]
  | (k, v) :: kvs, 0 => simp [membersFuel] at hf
  | (k, v) :: kvs, f + 1 =>
      have hfv : jsonFuel v ≤ f := by simp only [membersFuel] at hf; omega
      have hfm : membersFuel kvs ≤ f := by simp only [membersFuel] at hf; omega
      simp only [stringifyMembers, quoteChars, List.cons_append, List.append_assoc,
        List.singleton_append, List.nil_append]
      rw [parseMembers, skipWs_not_ws (by decide)]
      simp only [reduceIte]
      rw [if_neg (by decide)]
      rw [skipWs_ws (by decide), skipWs_indent, skipWs_not_ws (by decide)]
      simp only [reduceIte]
      rw [parseStringBody_roundtrip k.data
            (':' :: ' ' :: (stringifyChars v (d + 1) ++
              (stringifyMembers kvs d ++ ('\n' :: (indentChars d ++ ('\x7d' :: rest))))))]
      simp only [reduceIte]
      rw [skipWs_not_ws (by decide)]
      simp only [reduceIte]
      rw [parseVal_cons_ws f (by decide)]
      rw [rtVal v (d + 1) f
            (stringifyMembers kvs d ++ ('\n' :: (indentChars d ++ ('\x7d' :: rest)))) hfv
            (numStop_members_head kvs d (indentChars d ++ ('\x7d' :: rest)))]
      simp only [reduceIte]
      rw [rtMembers kvs d f rest hfm]

end


mutual

theorem jsonFuel_le (v : Json) (d : Nat) :
    jsonFuel v ≤ (stringifyChars v d).length + 1 := by
  match v with
  | .null => simp [jsonFuel, stringifyChars]
  | .bool true => simp [jsonFuel, stringifyChars]
  | .bool false => simp [jsonFuel, stringifyChars]
  | .num n => simp [jsonFuel]
  | .str s => simp [jsonFuel]
  | .arr [] => simp [jsonFuel, stringifyChars]
  | .arr (x :: xs) =>
      have h1 := jsonFuel_le x (d + 1)
      have h2 := elemsFuel_le xs d
      simp only [jsonFuel, stringifyChars, List.length_cons, List.length_append]
      omega
  | .obj [] => simp [jsonFuel, stringifyChars]
  | .obj ((k, v) :: kvs) =>
      have h1 := jsonFuel_le v (d + 1)
      have h2 := membersFuel_le kvs d
      simp only [jsonFuel, stringifyChars, List.length_cons, List.length_append]
      omega

theorem elemsFuel_le (xs : List Json) (d : Nat) :
    elemsFuel xs ≤ (stringifyElems xs d).length + 1 := by
  match xs with
  | [] => simp [elemsFuel, stringifyElems]
  | x :: xs =>
      have h1 := jsonFuel_le x (d + 1)
      have h2 := elemsFuel_le xs d
      simp only [elemsFuel, stringifyElems, List.length_cons, List.length_append]
      omega

theorem membersFuel_le (kvs : List (String × Json)) (d : Nat) :
    membersFuel kvs ≤ (stringifyMembers kvs d).length + 1 := by
  match kvs with
  | [] => simp [membersFuel, stringifyMembers]
  | (k, v) :: kvs =>
      have h1 := jsonFuel_le v (d + 1)
      have h2 := membersFuel_le kvs d
      simp only [membersFuel, stringifyMembers, List.length_cons, List.length_append]
      omega

end

/-- The core of the save/load round trip: re-reading a pretty-printed value
gives the value back. -/
theorem jsonParse_stringifyPretty (v : Json) : jsonParse (stringifyPretty v) = some v := by
  have hlen : jsonFuel v ≤ (stringifyChars v 0).length + 1 := jsonFuel_le v 0
  have h := rtVal v 0 ((stringifyChars v 0).length + 1) [] hlen trivial
  rw [List.append_nil] at h
  unfold jsonParse stringifyPretty
  rw [h]
  simp [skipWs]

/-! ## Claim theorems -/

/-- Claim C5: for every BusinessConfig accepted by `POST /api/business/save`
(a truthy value of JavaScript `object` type, with the unique member keys every
JavaScript object has), a subsequent `GET /api/business/load` with no
intervening write returns the saved config field-for-field: save followed by
load is the identity on JSON-representable configs. -/
theorem save_then_load_roundtrip (file : Option String) (config : Json)
    (hacc : saveAccepts config = true) (_hkeys : noDupKeys config = true) :
    (saveBusinessConfig file config).1 = 200
      ∧ loadBusinessConfig (saveBusinessConfig file config).2 = some config := by
  constructor
  · simp [saveBusinessConfig, hacc]
  · simp [saveBusinessConfig, hacc, loadBusinessConfig, jsonParse_stringifyPretty]

/-- Concrete instance of the C5 round trip. -/
theorem save_then_load_roundtrip_witness :
    (saveBusinessConfig none
        (Json.obj [("businessInfo", Json.obj [("name", Json.str "Cut & Co")]),
          ("services", Json.arr [Json.num 30, Json.str "Haircut"])])).1 = 200
      ∧ loadBusinessConfig
          (saveBusinessConfig none
            (Json.obj [("businessInfo", Json.obj [("name", Json.str "Cut & Co")]),
              ("services", Json.arr [Json.num 30, Json.str "Haircut"])])).2
        = some (Json.obj [("businessInfo", Json.obj [("name", Json.str "Cut & Co")]),
            ("services", Json.arr [Json.num 30, Json.str "Haircut"])]) :=
  save_then_load_roundtrip none _ (by decide) (by decide)

/-- Claim C8, as stated, is false: the CORS origin callback never refuses; its
final fallback allows any origin, so an origin outside the allow-list is still
allowed.  This exhibits `http://evil.example` against the default allow-list. -/
theorem cors_allowlist_counterexample :
    ¬ (∀ (allowedOrigins : List String) (o : String),
        allowedOrigins.contains o = false → corsAllow allowedOrigins (some o) = false) := by
  intro h
  exact absurd (h defaultAllowedOrigins "http://evil.example" (by decide)) (by decide)

/-- Claim C8 amended: the CORS layer allows every origin — listed origins and
requests with no origin are allowed, and any other origin is allowed by the
fallback, so the allow-list never refuses anything. -/
theorem cors_allows_every_origin (allowedOrigins : List String) (origin : Option String) :
    corsAllow allowedOrigins origin = true := by
  cases origin with
  | none => rfl
  | some o => simp [corsAllow]

/-- Claim C2: a `POST /api/start-agent` request whose channel is missing, not
a string, or a string longer than 64 characters gets a 400 validation error
and no Agora call (in particular the vendor join endpoint) is ever made. -/
theorem startAgent_rejects_bad_channel (b : StartAgentBody) (join1 join2 : JoinResult)
    (h : b.channel = none
       ∨ (∃ v, b.channel = some v ∧ ∀ s, v ≠ Json.str s)
       ∨ (∃ s, b.channel = some (Json.str s) ∧ 64 < s.length)) :
    startAgent b join1 join2 = ⟨400, some "Invalid channel name.", none, []⟩ := by
  have hv : validChannel b.channel = false := by
    rcases h with h | ⟨v, hv, hns⟩ | ⟨s, hs, hlen⟩
    · rw [h]; rfl
    · rw [hv]
      cases v with
      | str s => exact absurd rfl (hns s)
      | null => rfl
      | bool bb => rfl
      | num n => rfl
      | arr l => rfl
      | obj l => rfl
    · rw [hs]
      have h64 : ¬ (s.length ≤ 64) := by omega
      simp [validChannel, h64]
  simp [startAgent, hv]

/-- Concrete instance of C2: a 65-character channel name is rejected with 400
and an empty Agora call trace. -/
theorem startAgent_rejects_bad_channel_witness :
    startAgent
        ⟨some (Json.str "aaaaaaaaaaaaaaaaaaaaaaaaaaaaaaaaaaaaaaaaaaaaaaaaaaaaaaaaaaaaaaaaa"),
          some (Json.num 7), none⟩
        ⟨200, some "agent-1"⟩ ⟨200, some "agent-1"⟩
      = ⟨400, some "Invalid channel name.", none, []⟩ :=
  startAgent_rejects_bad_channel _ _ _ (Or.inr (Or.inr ⟨_, rfl, by decide⟩))

/-- Claim C3: when the first vendor join call returns HTTP 409 with a body
carrying a (truthy) stale `agent_id`, the handler performs exactly one leave
call for that stale id followed by exactly one retried join, and no further
retry happens whatever the retried call returns: the full Agora call trace is
`[join, leave staleId, join]` for every possible second join result. -/
theorem startAgent_conflict_single_retry (b : StartAgentBody) (join1 join2 : JoinResult)
    (staleId : String)
    (hch : validChannel b.channel = true) (huid : validUid b.uid = true)
    (hrem : validRemoteUids b.remoteUids = true)
    (h409 : join1.status = 409) (hid : join1.agentId = some staleId) (hne : staleId ≠ "") :
    (startAgent b join1 join2).agoraCalls
      = [AgoraCall.join, AgoraCall.leave staleId, AgoraCall.join] := by
  have hne2 : (staleId != "") = true := by simp [hne]
  simp only [startAgent, hch, huid, hrem, Bool.not_true, Bool.false_eq_true, if_false,
    h409, hid, hne2, if_true, reduceIte]
  split <;> rfl

/-- Concrete instance of C3: a 409 first join with stale id `agent-old`
produces the trace `[join, leave agent-old, join]`. -/
theorem startAgent_conflict_single_retry_witness :
    (startAgent ⟨some (Json.str "room-1"), some (Json.num 7), none⟩
        ⟨409, some "agent-old"⟩ ⟨200, some "agent-new"⟩).agoraCalls
      = [AgoraCall.join, AgoraCall.leave "agent-old", AgoraCall.join] :=
  startAgent_conflict_single_retry _ _ _ "agent-old" (by decide) rfl rfl rfl rfl
    (by decide)

/-- Claim C10: a `POST /api/agent-log` request whose body has no truthy `type`
field is answered with 400 and the relay state — the event ring buffer and
every connected subscriber's stream — is left unchanged. -/
theorem agentLog_rejects_falsy_type (body : AgentLogBody) (ts : Nat) (st : RelayState)
    (h : jsTruthy body.type = false) :
    agentLogHandler body ts st = (400, st) := by
  cases hb : body.type with
  | none => simp [agentLogHandler, hb]
  | some t =>
      have ht : t.truthy = false := by rw [hb] at h; exact h
      simp [agentLogHandler, hb, ht]

/-- Concrete instance of C10: an empty-string `type` is falsy, so the state is
untouched and the reply is 400. -/
theorem agentLog_rejects_falsy_type_witness :
    agentLogHandler ⟨some (Json.str ""), none, none, none⟩ 0 relayInit
      = (400, relayInit) :=
  agentLog_rejects_falsy_type _ 0 relayInit rfl

theorem broadcast_buffer_le (st : RelayState) (e : AgentLogEvent)
    (h : st.agentLogBuffer.length ≤ 50) :
    (broadcastAgentLog st e).agentLogBuffer.length ≤ 50 := by
  simp only [broadcastAgentLog]
  split
  · simp only [List.length_tail, List.length_append, List.length_singleton]
    omega
  · rename_i hb
    simp only [List.length_append, List.length_singleton] at hb ⊢
    omega

theorem relayRun_buffer_le (ops : List RelayOp) :
    (relayRun ops).agentLogBuffer.length ≤ 50 := by
  suffices h : ∀ st : RelayState, st.agentLogBuffer.length ≤ 50 →
      (ops.foldl relayStep st).agentLogBuffer.length ≤ 50 by
    exact h relayInit (by simp [relayInit])
  induction ops with
  | nil => intro st h; exact h
  | cons op ops ih =>
      intro st h
      cases op with
      | publish e => exact ih _ (broadcast_buffer_le st e h)
      | subscribe => exact ih _ h

theorem relay_buffer_suffix_aux (ops : List RelayOp) :
    ∀ (st : RelayState) (pre : List AgentLogEvent), st.agentLogBuffer <:+ pre →
      (ops.foldl relayStep st).agentLogBuffer <:+ pre ++ publishedEvents ops := by
  induction ops with
  | nil =>
      intro st pre h
      simpa [publishedEvents] using h
  | cons op ops ih =>
      intro st pre h
      cases op with
      | publish e =>
          have h1 : (broadcastAgentLog st e).agentLogBuffer <:+ pre ++ [e] := by
            have happ : st.agentLogBuffer ++ [e] <:+ pre ++ [e] := by
              obtain ⟨t, ht⟩ := h
              exact ⟨t, by rw [← List.append_assoc, ht]⟩
            simp only [broadcastAgentLog]
            split
            · exact (List.tail_suffix _).trans happ
            · exact happ
          have h2 := ih _ (pre ++ [e]) h1
          simpa [publishedEvents, List.append_assoc] using h2
      | subscribe =>
          have h2 := ih (relayStep st RelayOp.subscribe) pre h
          simpa [publishedEvents] using h2

theorem relay_buffer_suffix (ops : List RelayOp) :
    (relayRun ops).agentLogBuffer <:+ publishedEvents ops := by
  simpa using relay_buffer_suffix_aux ops relayInit [] (by simp [relayInit])

theorem foldl_publish_subscribers (live : List AgentLogEvent) (st : RelayState) :
    ((live.map RelayOp.publish).foldl relayStep st).subscribers
      = st.subscribers.map (fun w => w ++ live) := by
  induction live generalizing st with
  | nil => simp
  | cons e live ih =>
      simp only [List.map_cons, List.foldl_cons, relayStep, ih, broadcastAgentLog,
        List.map_map]
      congr 1
      funext w
      simp

/-- Claim C4: after any sequence of relay operations from server start, the
event ring buffer holds at most 50 events and is a suffix of the published
events (so it preserves original publish order); and a subscriber that
connects at that point receives exactly the buffered events as replay, and
then, after any further publishes, exactly those live events after them. -/
theorem relay_bounded_replay (ops : List RelayOp) (live : List AgentLogEvent) :
    (relayRun ops).agentLogBuffer.length ≤ 50
  ∧ (relayRun ops).agentLogBuffer <:+ publishedEvents ops
  ∧ (relayRun (ops ++ RelayOp.subscribe :: live.map RelayOp.publish)).subscribers.getLast?
      = some ((relayRun ops).agentLogBuffer ++ live) := by
  refine ⟨relayRun_buffer_le ops, relay_buffer_suffix ops, ?_⟩
  unfold relayRun
  rw [List.foldl_append, List.foldl_cons]
  rw [show relayStep (List.foldl relayStep relayInit ops) RelayOp.subscribe
        = subscribeAgentEvents (List.foldl relayStep relayInit ops) from rfl]
  rw [foldl_publish_subscribers]
  simp [subscribeAgentEvents, List.getLast?_concat]

theorem copyHeaders_keeps {hs : List (String × String)} {kv : String × String}
    (hmem : kv ∈ hs) (hexc : hopByHopExcluded.contains (lowerStr kv.1) = false) :
    kv ∈ copyHeaders hs := by
  induction hs with
  | nil => cases hmem
  | cons h0 hs ih =>
      obtain ⟨k, v⟩ := h0
      rcases List.mem_cons.mp hmem with heq | hmem2
      · subst heq
        rw [copyHeaders, if_neg (by rw [hexc]; exact Bool.false_ne_true)]
        exact List.mem_cons_self _ _
      · by_cases hx : hopByHopExcluded.contains (lowerStr k) = true
        · rw [copyHeaders, if_pos hx]
          exact ih hmem2
        · rw [copyHeaders, if_neg hx]
          exact List.mem_cons_of_mem _ (ih hmem2)

theorem copyHeaders_sub {hs : List (String × String)} {kv : String × String}
    (hmem : kv ∈ copyHeaders hs) :
    kv ∈ hs ∧ hopByHopExcluded.contains (lowerStr kv.1) = false := by
  induction hs with
  | nil => cases hmem
  | cons h0 hs ih =>
      obtain ⟨k, v⟩ := h0
      by_cases hx : hopByHopExcluded.contains (lowerStr k) = true
      · rw [copyHeaders, if_pos hx] at hmem
        exact ⟨List.mem_cons_of_mem _ (ih hmem).1, (ih hmem).2⟩
      · rw [copyHeaders, if_neg hx] at hmem
        rcases List.mem_cons.mp hmem with heq | hmem2
        · subst heq
          exact ⟨List.mem_cons_self _ _, by simpa using hx⟩
        · exact ⟨List.mem_cons_of_mem _ (ih hmem2).1, (ih hmem2).2⟩

theorem pipeChunks_id (cs : List String) : pipeChunks cs = cs := by
  induction cs with
  | nil => rfl
  | cons c cs ih => simp [pipeChunks, ih]

/-- Claim C7: for every upstream response, the proxy's client response carries
the upstream status code, contains exactly the upstream headers whose
lower-cased name is not `content-encoding`, `transfer-encoding` or
`connection`, and forwards the body chunks in upstream order; the chunk relay
is prefix-preserving, i.e. each chunk is emitted from the chunks received so
far, without buffering the whole body. -/
theorem llmProxy_response_spec (u : UpstreamResponse) :
    (proxyRespond u).status = u.status
  ∧ (∀ kv : String × String, kv ∈ u.headers →
        hopByHopExcluded.contains (lowerStr kv.1) = false → kv ∈ (proxyRespond u).headers)
  ∧ (∀ kv : String × String, kv ∈ (proxyRespond u).headers →
        kv ∈ u.headers ∧ hopByHopExcluded.contains (lowerStr kv.1) = false)
  ∧ (proxyRespond u).chunks = u.chunks
  ∧ (∀ n, pipeChunks (u.chunks.take n) = u.chunks.take n) := by
  refine ⟨rfl, ?_, ?_, ?_, ?_⟩
  · intro kv hmem hexc
    exact copyHeaders_keeps hmem hexc
  · intro kv hmem
    exact copyHeaders_sub hmem
  · exact pipeChunks_id _
  · intro n
    exact pipeChunks_id _

/-- Concrete instance of C7: a non-excluded upstream header survives the copy
loop while `Connection` is dropped. -/
theorem llmProxy_response_spec_witness :
    ("x-request-id", "7") ∈ (proxyRespond
        ⟨200, [("x-request-id", "7"), ("Connection", "keep-alive")], ["a", "b"]⟩).headers :=
  (llmProxy_response_spec _).2.1 ("x-request-id", "7") (by simp) (by decide)

/-- Claim C6, as stated, is false: the proxy does not pass the incoming
headers through (only a fixed `Content-Type` plus the `authorization` header
survive) and it re-serializes the parsed body instead of forwarding the raw
bytes.  Counterexample: a request with an `x-custom` header whose raw body
carries extra whitespace. -/
theorem llmProxy_forward_counterexample :
    ¬ (∀ (url : String) (req : IncomingChatRequest),
        jsonParse req.rawBody = some req.body →
          (proxyForward url req).headers = req.headers
            ∧ (proxyForward url req).body = req.rawBody) := by
  intro h
  have h2 := h "http://localhost:8000/chat/completions"
      ⟨[("x-custom", "1")], "\x7b\"a\": 1\x7d", Json.obj [("a", Json.num 1)]⟩ (by rfl)
  exact absurd h2.1 (by decide)

/-- Claim C6 amended: the proxy forwards to the configured internal URL by
POST with only a `Content-Type: application/json` header plus, when the
incoming request has a truthy (non-empty) `authorization` header, that
header's value as `Authorization`; no other incoming header is passed
through, and the forwarded body is the JSON re-serialization of the parsed
request body rather than the raw request bytes. -/
theorem llmProxy_forward_spec (url : String) (req : IncomingChatRequest) :
    (proxyForward url req).url = url
  ∧ (proxyForward url req).method = "POST"
  ∧ (∀ kv : String × String, kv ∈ (proxyForward url req).headers →
        kv.1 = "Content-Type" ∨ kv.1 = "Authorization")
  ∧ (∀ a, lookupHeader req.headers "authorization" = some a → a ≠ "" →
        ("Authorization", a) ∈ (proxyForward url req).headers)
  ∧ (proxyForward url req).body = stringifyCompact req.body := by
  refine ⟨rfl, rfl, ?_, ?_, rfl⟩
  · intro kv hkv
    simp only [proxyForward] at hkv
    rcases List.mem_cons.mp hkv with heq | hmem
    · left; rw [heq]
    · cases hau : lookupHeader req.headers "authorization" with
      | none => rw [hau] at hmem; cases hmem
      | some a =>
          rw [hau] at hmem
          by_cases ha : a = ""
          · simp [ha] at hmem
          · simp [ha] at hmem
            right
            rw [hmem]
  · intro a ha hne
    simp [proxyForward, ha, hne]

/-- Concrete instance of the amended C6: an incoming non-empty
`authorization` header is forwarded as `Authorization`. -/
theorem llmProxy_forward_spec_witness :
    ("Authorization", "Bearer t") ∈ (proxyForward "http://localhost:8000/chat/completions"
        ⟨[("authorization", "Bearer t")], "1", Json.num 1⟩).headers :=
  (llmProxy_forward_spec _ _).2.2.2.1 "Bearer t" (by rfl) (by decide)

set_option maxRecDepth 4000 in
/-- Claim C9, as stated, is false: `buildSystemPrompt` embeds the current date
and time read from the ambient clock, so two calls with the same
BusinessConfig made at different clock readings return different strings.
The counterexample compares the first 250 characters of the prompts built for
the same config at dates `"A"` and `"AB"`. -/
theorem buildSystemPrompt_claim_counterexample :
    ¬ (∀ (config : Option BusinessConfig) (envPrompt : Option String) (d1 t1 d2 t2 : String),
        buildSystemPrompt config envPrompt d1 t1 = buildSystemPrompt config envPrompt d2 t2) := by
  intro h
  have h2 := h (some ⟨some ⟨some "Salon", none, none, none, none⟩, none, none, none, none⟩)
      none "A" "x" "AB" "x"
  have h3 := congrArg (fun s : String => s.data.take 250) h2
  revert h3
  decide

/-- Claim C9 amended: the prompt builder is deterministic in its full input —
two calls with the same BusinessConfig, the same environment prompt, and the
same current date and time return equal strings (determinism fails only
across different clock readings). -/
theorem buildSystemPrompt_deterministic (config : Option BusinessConfig)
    (envPrompt : Option String) (d1 t1 d2 t2 : String) (hd : d1 = d2) (ht : t1 = t2) :
    buildSystemPrompt config envPrompt d1 t1 = buildSystemPrompt config envPrompt d2 t2 := by
  rw [hd, ht]

/-- Concrete instance of the amended C9. -/
theorem buildSystemPrompt_deterministic_witness :
    buildSystemPrompt (some ⟨some ⟨some "Salon", none, none, none, none⟩,
        none, none, none, none⟩) none "D" "T"
      = buildSystemPrompt (some ⟨some ⟨some "Salon", none, none, none, none⟩,
          none, none, none, none⟩) none "D" "T" :=
  buildSystemPrompt_deterministic _ none "D" "T" "D" "T" rfl rfl

theorem string_data_foldl (l : List String) (init : String) :
    (l.foldl (fun acc s => acc ++ s) init).data
      = init.data ++ (l.map String.data).flatten := by
  induction l generalizing init with
  | nil => simp
  | cons s l ih =>
      simp only [List.foldl_cons, ih, List.map_cons, List.flatten_cons,
        String.data_append, List.append_assoc]

theorem string_data_join (l : List String) :
    (String.join l).data = (l.map String.data).flatten := by
  rw [show String.join l = l.foldl (fun acc s => acc ++ s) "" from rfl, string_data_foldl]
  rfl

theorem servicesBlock_data (currency : String) (taxRate : Int) (services : List Service) :
    (servicesBlock currency taxRate services).data
      = (services.enum.map (fun p => (serviceLine currency taxRate p.1 p.2).data)).flatten := by
  simp only [servicesBlock, string_data_join, List.map_map]
  rfl

theorem infix_of_eq_append {α : Type} {l s t whole : List α}
    (h : whole = s ++ (l ++ t)) : l <:+: whole :=
  ⟨s, t, by rw [h, List.append_assoc]⟩

/-- Claim C1: for every BusinessConfig whose `businessInfo.name` is present
(truthy), the built prompt contains the business name; and when the services
list is non-empty the prompt decomposes around one `serviceLine` per service —
the `\n{i+1}. {name}...` line of the services loop — in input order. -/
theorem prompt_contains_name_and_services
    (cfg : BusinessConfig) (bi : BusinessInfo) (nm : String)
    (envPrompt : Option String) (currentDate currentTime : String)
    (hbi : cfg.businessInfo = some bi) (hnm : bi.name = some nm) (hne : nm ≠ "") :
    (nm.data <:+: (buildSystemPrompt (some cfg) envPrompt currentDate currentTime).data)
  ∧ (∀ services, cfg.services = some services → services ≠ [] →
      ∃ pre post,
        (buildSystemPrompt (some cfg) envPrompt currentDate currentTime).data
          = pre ++ (services.enum.map (fun p =>
              (serviceLine (strOr (cfg.pricing.getD emptyPricing).currency "USD")
                (intOr (cfg.pricing.getD emptyPricing).taxRate 0) p.1 p.2).data)).flatten
            ++ post) := by
  have hb : buildSystemPrompt (some cfg) envPrompt currentDate currentTime
      = promptBody bi nm (cfg.services.getD []) (cfg.hours.getD emptyWeek)
          (cfg.bookingRules.getD emptyRules)
          (cfg.pricing.getD emptyPricing) currentDate currentTime := by
    simp [buildSystemPrompt, hbi, hnm, hne]
  constructor
  · rw [hb]
    apply infix_of_eq_append
    simp only [promptBody, identityPart, String.data_append, List.append_assoc]
    rfl
  · intro services hsv hsne
    have hlen : services.length > 0 := List.length_pos.mpr hsne
    have hgd : cfg.services.getD [] = services := by rw [hsv]; rfl
    refine ⟨(identityPart bi nm currentDate currentTime).data
        ++ ((detailsPart bi nm).data
          ++ (servicesHeader (strOr (cfg.pricing.getD emptyPricing).currency "USD")
                (intOr (cfg.pricing.getD emptyPricing).taxRate 0)).data),
      (hoursSection (cfg.hours.getD emptyWeek)).data
        ++ ((rulesSection (cfg.bookingRules.getD emptyRules)).data
          ++ (callHandlingSection.data ++ voiceStyleSection.data)), ?_⟩
    rw [hb, hgd]
    simp only [promptBody, servicesSection, hlen, if_pos, String.data_append,
      servicesBlock_data, List.append_assoc]

/-- Concrete instance of C1 for a two-service config. -/
theorem prompt_contains_name_and_services_witness :
    (("Cut & Co" : String).data <:+:
      (buildSystemPrompt
        (some ⟨some ⟨some "Cut & Co", none, none, none, none⟩,
          some [⟨"Haircut", some 30, some 25, some "Classic cut"⟩, ⟨"Shave", none, none, none⟩],
          none, none, none⟩) none "D" "T").data)
  ∧ ∃ pre post,
      (buildSystemPrompt
        (some ⟨some ⟨some "Cut & Co", none, none, none, none⟩,
          some [⟨"Haircut", some 30, some 25, some "Classic cut"⟩, ⟨"Shave", none, none, none⟩],
          none, none, none⟩) none "D" "T").data
        = pre ++ (([⟨"Haircut", some 30, some 25, some "Classic cut"⟩,
              ⟨"Shave", none, none, none⟩] : List Service).enum.map (fun p =>
            (serviceLine
              (strOr ((BusinessConfig.mk (some ⟨some "Cut & Co", none, none, none, none⟩)
                  (some [⟨"Haircut", some 30, some 25, some "Classic cut"⟩,
                    ⟨"Shave", none, none, none⟩]) none none none).pricing.getD
                  emptyPricing).currency "USD")
              (intOr ((BusinessConfig.mk (some ⟨some "Cut & Co", none, none, none, none⟩)
                  (some [⟨"Haircut", some 30, some 25, some "Classic cut"⟩,
                    ⟨"Shave", none, none, none⟩]) none none none).pricing.getD
                  emptyPricing).taxRate 0) p.1 p.2).data)).flatten
          ++ post :=
  ⟨(prompt_contains_name_and_services _ _ _ none "D" "T" rfl rfl (by decide)).1,
    (prompt_contains_name_and_services _ _ _ none "D" "T" rfl rfl (by decide)).2
      _ rfl (List.cons_ne_nil _ _)⟩

end Workky
